import Mathlib

/-!
Shallow embedding of `src/lib/cli/daemoncontrol.cpp` (the Icinga 2
`DaemonControl` component): the per-connection HTTP request/response loop
(`Connection::ProcessMessages` with `EnsureValidHeaders`, `EnsureValidBody`,
`ProcessRequest`), the event-loop driver thread (`RunEventLoop`), and the
service lifecycle (`Start`, `Stop`, `BeforeFork`, `AfterFork`, destructor).

External effects (socket reads and writes, the request router, thread and
socket operations) are supplied as explicit inputs or recorded as action
traces; machine behaviour that the file relies on (exception propagation,
catch ordering) is modelled by explicit case analysis mirroring the
try/catch structure of the source.
-/

namespace DaemonControl

/-- Log severities appearing in daemoncontrol.cpp: LogNotice, LogInformation,
LogCritical, LogDebug. -/
inductive LogSeverity
  | notice
  | information
  | critical
  | debugLvl
  deriving DecidableEq

/-- JSON error body, kept structured because serialization to the wire is
delegated to an external collaborator: an integer error code, a status
message, and (for 500 responses) an optional diagnostic field. -/
structure ErrorBody where
  error : Nat
  status : String
  diagnostic : Option String := none
  deriving DecidableEq

/-- Observable state of a response as daemoncontrol.cpp manipulates it:
numeric status, the Server field (none when never set), whether the
Connection field was set to "close", and the JSON body, if any. -/
structure Response where
  status : Nat := 200
  server : Option String := none
  connectionClose : Bool := false
  body : Option ErrorBody := none
  deriving DecidableEq

/-- Parsed request fields that ProcessMessages reads: the numeric protocol
version (10 or 11 when valid), method and target, the user-agent and
Connection header values (the empty string when the header is absent,
matching field access that returns "" for a missing field), and the sizes
that the parser limits apply to. -/
structure HttpRequest where
  version : Nat := 11
  method : String := "GET"
  target : String := "/"
  userAgent : String := ""
  connectionHeader : String := ""
  headerSize : Nat := 0
  bodySize : Nat := 0
  deriving DecidableEq

/-- Exceptions that can cross the connection loop: the coroutine forced
unwind (the cancellation signal), a boost system_error carrying a numeric
error code, or any other exception. -/
inductive Exn
  | forcedUnwind
  | sysError (code : Nat)
  | otherExn (what : String)
  deriving DecidableEq

/-- errc::broken_pipe, the code that l_EPipe compares against. -/
def l_EPipe : Nat := 32

/-- Outcome of the request-handling step inside ProcessRequest (building the
default 404 response; the request router, when present): success, the
cancellation signal, or another exception with its diagnostic information. -/
inductive HandlerOutcome
  | ok
  | raiseUnwind
  | raiseExn (diag : String)
  deriving DecidableEq

/-- One request worth of external input to the connection loop: an optional
lower-layer read or parse error surfaced while reading the headers, the
request itself, an optional read or parse error surfaced while reading the
body, the handler outcome, and an optional exception thrown by the response
write or flush of this iteration. -/
structure ConnInput where
  headerReadError : Option String := none
  request : HttpRequest := {}
  bodyReadError : Option String := none
  handler : HandlerOutcome := .ok
  writeFail : Option Exn := none
  deriving DecidableEq

/-- Log events emitted by the connection task: the per-request information
line and the single line written by the top-level catch in ProcessMessages. -/
inductive LogEvent
  | request (method target agent : String)
  | connError (severity : LogSeverity)
  deriving DecidableEq

/-- How the connection task ended: the loop broke out normally, the supplied
input was exhausted while the loop wanted to continue, the cancellation
signal was rethrown, or another exception was caught and logged. -/
inductive ConnExit
  | closed
  | starved
  | unwound
  | caught (e : Exn)
  deriving DecidableEq

/-- Observable result of a connection task: the responses fully written and
flushed, the log lines emitted, and how the task ended. -/
structure ConnResult where
  written : List Response
  logs : List LogEvent
  exit : ConnExit
  deriving DecidableEq

/-- parser.header_limit(1024 * 1024). -/
def headerLimit : Nat := 1024 * 1024

/-- parser.body_limit(1024 * 1024). -/
def bodyLimit : Nat := 1024 * 1024

/-- Failure of EnsureValidHeaders, with its reason: a lower-layer or protocol
error from async_read_header (a header block over the limit surfaces the same
way, as a system_error converted to invalid_argument), or, after a successful
read, a protocol version other than 10 or 11. -/
def headerFailReason (i : ConnInput) : Option String :=
  match i.headerReadError with
  | some msg => some msg
  | none =>
    if headerLimit < i.request.headerSize then some "header limit exceeded"
    else if i.request.version = 10 ∨ i.request.version = 11 then none
    else some "Unsupported HTTP version"

/-- Failure of EnsureValidBody, with its reason: a lower-layer or protocol
error from async_read (a body over the limit surfaces the same way). -/
def bodyFailReason (i : ConnInput) : Option String :=
  match i.bodyReadError with
  | some msg => some msg
  | none =>
    if bodyLimit < i.request.bodySize then some "body limit exceeded"
    else none

/-- HttpUtility::SendJsonBody(response, nullptr, dict): attaches the given
dictionary as the JSON body of the response. -/
def sendJsonBody (r : Response) (b : ErrorBody) : Response :=
  { r with body := some b }

/-- Modelled from the spec: HttpUtility::SendJsonError (remote/httputility.cpp,
which is not under src/) is the error-response builder collaborator. Given a
numeric status and message it sets that status on the response and attaches
the JSON error envelope (integer error code, status message, optional
diagnostic detail) as the body. -/
def sendJsonError (r : Response) (code : Nat) (msg : String)
    (diag : Option String) : Response :=
  { r with status := code, body := some ⟨code, msg, diag⟩ }

/-- Shared failure path of EnsureValidHeaders and EnsureValidBody: set status
bad_request, attach the error 400 / "Bad Request: reason" body via
SendJsonBody, and set the Connection field to "close". -/
def badRequestResponse (r : Response) (reason : String) : Response :=
  let r1 := { r with status := 400 }
  let r2 := sendJsonBody r1 ⟨400, "Bad Request: " ++ reason, none⟩
  { r2 with connectionClose := true }

/-- The 404 message built in ProcessRequest. -/
def notFoundMessage (target : String) : String :=
  "The requested path '" ++ target ++
    "' could not be found or the request method is not valid for this path."

/-- The continue condition of the loop in ProcessMessages, as the negation of
the break condition `request.version() != 11 || request[connection] == "close"`. -/
def keepAliveDecision (req : HttpRequest) : Bool :=
  req.version == 11 && req.connectionHeader != "close"

/-- Result of one iteration of the connection loop body: responses fully
written and flushed, log lines emitted, an exception escaping the iteration
(if any), and whether the loop keeps the connection alive. -/
structure StepOut where
  written : List Response
  logs : List LogEvent
  thrown : Option Exn
  keepAlive : Bool
  deriving DecidableEq

/-- One iteration of the loop body of DaemonControl::Connection::ProcessMessages:
fresh parser and response, Server header set on the response, then
EnsureValidHeaders, the request log line, EnsureValidBody, ProcessRequest and
the keep-alive decision. The parameter sh is the value of l_ServerHeader.
A successful write-and-flush appends the response to written; a failing
write throws, so nothing is recorded as written for that iteration. The 500
built in the catch of ProcessRequest starts from a fresh default response
rather than the one carrying the Server header. -/
def stepConn (sh : String) (i : ConnInput) : StepOut :=
  let resp0 : Response := { server := some sh }
  match headerFailReason i with
  | some reason =>
    match i.writeFail with
    | some e => ⟨[], [], some e, false⟩
    | none => ⟨[badRequestResponse resp0 reason], [], none, false⟩
  | none =>
    let reqLine := LogEvent.request i.request.method i.request.target i.request.userAgent
    match bodyFailReason i with
    | some reason =>
      match i.writeFail with
      | some e => ⟨[], [reqLine], some e, false⟩
      | none => ⟨[badRequestResponse resp0 reason], [reqLine], none, false⟩
    | none =>
      match i.handler with
      | .raiseUnwind => ⟨[], [reqLine], some .forcedUnwind, false⟩
      | .raiseExn diag =>
        match i.writeFail with
        | some e => ⟨[], [reqLine], some e, false⟩
        | none =>
          ⟨[sendJsonError {} 500 "Unhandled exception" (some diag)], [reqLine],
            none, keepAliveDecision i.request⟩
      | .ok =>
        match i.writeFail with
        | some e => ⟨[], [reqLine], some e, false⟩
        | none =>
          ⟨[sendJsonError resp0 404 (notFoundMessage i.request.target) none], [reqLine],
            none, keepAliveDecision i.request⟩

/-- Severity classification performed by the top-level catch of
ProcessMessages: LogNotice exactly for a boost system_error whose code equals
l_EPipe, LogCritical for every other exception. -/
def classify (e : Exn) : LogSeverity :=
  match e with
  | .sysError c => if c = l_EPipe then .notice else .critical
  | _ => .critical

/-- DaemonControl::Connection::ProcessMessages: iterate the loop body over the
incoming requests. The coroutine forced unwind is rethrown uncaught; any other
escaping exception is caught and logged on one line at the classified
severity; the loop ends when an iteration decides not to keep the connection
alive. -/
def connLoop (sh : String) : List ConnInput → ConnResult
  | [] => ⟨[], [], .starved⟩
  | i :: rest =>
    let s := stepConn sh i
    match s.thrown with
    | some .forcedUnwind => ⟨s.written, s.logs, .unwound⟩
    | some e => ⟨s.written, s.logs ++ [LogEvent.connError (classify e)], .caught e⟩
    | none =>
      if s.keepAlive then
        let r := connLoop sh rest
        ⟨s.written ++ r.written, s.logs ++ r.logs, r.exit⟩
      else ⟨s.written, s.logs, .closed⟩

/-- Outcome of one m_IO.run() call inside RunEventLoop: a normal return, the
TerminateDaemonControl signal, or another exception with its diagnostic
information. -/
inductive RunOutcome
  | normal
  | cancel
  | err (diag : String)
  deriving DecidableEq

/-- Whether a run outcome is a non-cancellation failure. -/
def isErr : RunOutcome → Bool
  | .err _ => true
  | _ => false

/-- Diagnostic information of a failing run outcome. -/
def errDiag : RunOutcome → String
  | .err d => d
  | _ => ""

/-- Log lines emitted by RunEventLoop: the fixed critical line and the
debug-severity line carrying DiagnosticInformation. -/
inductive EvLog
  | criticalLine (msg : String)
  | debugDiag (msg : String)
  deriving DecidableEq

/-- Result of the event-loop driver on a given sequence of run outcomes:
the log lines emitted and whether the thread terminated. terminated is false
when the supplied outcomes are exhausted without reaching a break. -/
structure EvResult where
  logs : List EvLog
  terminated : Bool
  deriving DecidableEq

/-- DaemonControl::RunEventLoop: drive m_IO.run() in a loop; a normal return
or the TerminateDaemonControl signal breaks the loop; any other exception
logs a critical line plus a debug line with the diagnostic information and
re-enters the loop. -/
def runEventLoop : List RunOutcome → EvResult
  | [] => ⟨[], false⟩
  | .normal :: _ => ⟨[], true⟩
  | .cancel :: _ => ⟨[], true⟩
  | .err d :: rest =>
    let r := runEventLoop rest
    ⟨EvLog.criticalLine "Exception during I/O operation!" :: EvLog.debugDiag d :: r.logs,
      r.terminated⟩

/-- Side-effecting actions the lifecycle functions perform, recorded in
program order. -/
inductive LAct
  | openAcceptor
  | unlinkStale
  | bindSocket
  | chmodSocket
  | listenSocket
  | spawnAcceptLoop
  | launchThread
  | postCancel
  | joinThread
  | closeAcceptor
  | unlinkSocket
  | notifyPrepare
  | notifyParent
  | notifyChild
  deriving DecidableEq

/-- Fields of DaemonControl touched by the lifecycle functions:
m_WasRunningBeforeFork, whether m_Thread is joinable, and whether m_Acceptor
is open. A freshly constructed object has all three false. -/
structure DCFields where
  wasRunningBeforeFork : Bool := false
  threadJoinable : Bool := false
  acceptorOpen : Bool := false
  deriving DecidableEq

/-- Object state together with the one piece of world state the lifecycle
functions touch: whether the socket file exists on disk. -/
structure Sys where
  dc : DCFields := {}
  socketOnDisk : Bool := false
  deriving DecidableEq

/-- DaemonControl::Start: open the acceptor, unlink any stale socket file,
bind (creating the file), chmod 0700, listen, spawn the accept loop, launch
the event-loop thread and set the was-running flag. Opening an already-open
acceptor or assigning over a joinable thread fails, so those preconditions
gate the call. -/
def startOp (s : Sys) : Option (Sys × List LAct) :=
  if s.dc.acceptorOpen || s.dc.threadJoinable then none
  else
    some (⟨⟨true, true, true⟩, true⟩,
      [.openAcceptor, .unlinkStale, .bindSocket, .chmodSocket, .listenSocket,
        .spawnAcceptLoop, .launchThread])

/-- DaemonControl::Stop: clear the was-running flag, post
TerminateDaemonControl, join the thread, close the acceptor and unlink the
socket path. Joining a non-joinable thread does not return, so the call is
undefined when the thread is not joinable. -/
def stopOp (s : Sys) : Option (Sys × List LAct) :=
  if s.dc.threadJoinable then
    some (⟨⟨false, false, false⟩, false⟩,
      [.postCancel, .joinThread, .closeAcceptor, .unlinkSocket])
  else none

/-- DaemonControl::BeforeFork: when the was-running flag is set, post the
cancellation signal and join the thread (the acceptor stays open and the flag
stays set); in every case notify the execution context of the impending fork. -/
def beforeForkOp (s : Sys) : Option (Sys × List LAct) :=
  if s.dc.wasRunningBeforeFork then
    if s.dc.threadJoinable then
      some ({ s with dc := { s.dc with threadJoinable := false } },
        [.postCancel, .joinThread, .notifyPrepare])
    else none
  else some (s, [.notifyPrepare])

/-- DaemonControl::AfterFork: notify the execution context first; when the
was-running flag is set, the parent relaunches the event-loop thread, while
the child runs the destructor in place (the thread is not joinable at that
point, so Stop is not invoked; the acceptor member's destructor closes the
descriptor without unlinking the path) and placement-constructs a fresh
object. With a joinable thread the call is undefined (thread assignment over
a joinable handle, or joining a thread that did not survive the fork). -/
def afterForkOp (parent : Bool) (s : Sys) : Option (Sys × List LAct) :=
  if s.dc.wasRunningBeforeFork then
    if s.dc.threadJoinable then none
    else if parent then
      some ({ s with dc := { s.dc with threadJoinable := true } },
        [.notifyParent, .launchThread])
    else
      some (⟨{}, s.socketOnDisk⟩,
        .notifyChild :: (if s.dc.acceptorOpen then [.closeAcceptor] else []))
  else some (s, [if parent then .notifyParent else .notifyChild])

/-- DaemonControl::~DaemonControl: call Stop exactly when the thread is
joinable, otherwise do nothing. -/
def destructorOp (s : Sys) : Sys × List LAct :=
  if s.dc.threadJoinable then
    match stopOp s with
    | some r => r
    | none => (s, [])
  else (s, [])

/-- States reachable from a freshly constructed object by arbitrary sequences
of Start, Stop, BeforeFork and AfterFork, stepping only through defined
(non-hanging) calls. -/
inductive Reachable : Sys → Prop
  | init : Reachable ⟨{}, false⟩
  | start {s t : Sys} {as : List LAct} :
      Reachable s → startOp s = some (t, as) → Reachable t
  | stop {s t : Sys} {as : List LAct} :
      Reachable s → stopOp s = some (t, as) → Reachable t
  | beforeFork {s t : Sys} {as : List LAct} :
      Reachable s → beforeForkOp s = some (t, as) → Reachable t
  | afterFork {b : Bool} {s t : Sys} {as : List LAct} :
      Reachable s → afterForkOp b s = some (t, as) → Reachable t

/-- States reachable when the fork protocol is honored, that is, when each
BeforeFork is immediately followed by its matching AfterFork. -/
inductive ReachableF : Sys → Prop
  | init : ReachableF ⟨{}, false⟩
  | start {s t : Sys} {as : List LAct} :
      ReachableF s → startOp s = some (t, as) → ReachableF t
  | stop {s t : Sys} {as : List LAct} :
      ReachableF s → stopOp s = some (t, as) → ReachableF t
  | fork {b : Bool} {s t u : Sys} {as bs : List LAct} :
      ReachableF s → beforeForkOp s = some (t, as) → afterForkOp b t = some (u, bs) →
      ReachableF u

/-! Theorems. -/

/-- Wire image of the shared 400 failure path: status 400, the Server header
already set, Connection close, and the JSON bad-request body. -/
def badRequestWire (sh reason : String) : Response :=
  ⟨400, some sh, true, some ⟨400, "Bad Request: " ++ reason, none⟩⟩

/-- C1: if reading or parsing the headers fails (lower-level read errors are
reported identically), or the headers or the body exceed the 1 MiB ceiling,
or the version is neither 1.0 nor 1.1, and the error write-out itself
succeeds, then the connection writes exactly one response: a 400 whose JSON
body is error 400 / "Bad Request: reason", with Connection close set, flushed
(a write in the model is a completed write-and-flush), and the connection
ends, reading no further requests: the result coincides with the result on
the single offending request, independent of the remaining input. -/
theorem c1_bad_request_closes (sh : String) (i : ConnInput) (rest : List ConnInput)
    (reason : String)
    (h : headerFailReason i = some reason ∨
      (headerFailReason i = none ∧ bodyFailReason i = some reason))
    (hw : i.writeFail = none) :
    connLoop sh (i :: rest) = connLoop sh [i] ∧
    (connLoop sh (i :: rest)).written = [badRequestWire sh reason] ∧
    (connLoop sh (i :: rest)).exit = ConnExit.closed := by
  rcases h with h | ⟨h1, h2⟩
  · simp [connLoop, stepConn, h, hw, badRequestWire, badRequestResponse, sendJsonBody]
  · simp [connLoop, stepConn, h1, h2, hw, badRequestWire, badRequestResponse, sendJsonBody]

/-- Concrete input for the C1 witness: an HTTP/0.9-style request (version 9). -/
def c1ex : ConnInput := { request := { version := 9 } }

/-- Witness for C1 at a concrete unsupported-version request followed by
another request that is never read. -/
theorem c1_bad_request_closes_witness :
    connLoop "Icinga/2.14.2" [c1ex, {}] = connLoop "Icinga/2.14.2" [c1ex] ∧
    (connLoop "Icinga/2.14.2" [c1ex, {}]).written =
      [badRequestWire "Icinga/2.14.2" "Unsupported HTTP version"] ∧
    (connLoop "Icinga/2.14.2" [c1ex, {}]).exit = ConnExit.closed :=
  c1_bad_request_closes "Icinga/2.14.2" c1ex [{}] "Unsupported HTTP version"
    (Or.inl (by decide)) rfl

/-- Wire image of the default 404 response built by ProcessRequest on the
response that already carries the Server header. -/
def notFoundWire (sh : String) (req : HttpRequest) : Response :=
  ⟨404, some sh, false, some ⟨404, notFoundMessage req.target, none⟩⟩

/-- The boolean keep-alive decision of the source agrees with the spec's
phrasing: version 1.1 and no explicit Connection close header. -/
theorem keepAliveDecision_eq_true (req : HttpRequest) :
    keepAliveDecision req = true ↔
      (req.version = 11 ∧ req.connectionHeader ≠ "close") := by
  simp [keepAliveDecision]

/-- C2: after a request completes a full request/response iteration (headers
and body parsed, handler succeeded, response written), the loop performs
another iteration exactly when that request's version is 1.1 and it did not
carry a Connection close header; otherwise the loop stops after the response. -/
theorem c2_keep_alive (sh : String) (i : ConnInput) (rest : List ConnInput)
    (h1 : headerFailReason i = none) (h2 : bodyFailReason i = none)
    (h3 : i.handler = HandlerOutcome.ok) (h4 : i.writeFail = none) :
    connLoop sh (i :: rest) =
      if i.request.version = 11 ∧ i.request.connectionHeader ≠ "close" then
        ⟨notFoundWire sh i.request :: (connLoop sh rest).written,
          LogEvent.request i.request.method i.request.target i.request.userAgent ::
            (connLoop sh rest).logs,
          (connLoop sh rest).exit⟩
      else
        ⟨[notFoundWire sh i.request],
          [LogEvent.request i.request.method i.request.target i.request.userAgent],
          ConnExit.closed⟩ := by
  by_cases hc : i.request.version = 11 ∧ i.request.connectionHeader ≠ "close"
  · have hk : keepAliveDecision i.request = true := (keepAliveDecision_eq_true i.request).mpr hc
    simp [connLoop, stepConn, h1, h2, h3, h4, hc, hk, notFoundWire, sendJsonError]
  · have hk : keepAliveDecision i.request = false := by
      rcases Bool.eq_false_or_eq_true (keepAliveDecision i.request) with h | h
      · exact absurd ((keepAliveDecision_eq_true i.request).mp h) hc
      · exact h
    simp [connLoop, stepConn, h1, h2, h3, h4, hc, hk, notFoundWire, sendJsonError]

/-- Witness for C2 at a concrete default HTTP/1.1 request without a
Connection header. -/
theorem c2_keep_alive_witness :
    connLoop "Icinga/2.14.2" [({} : ConnInput)] =
      if ({} : ConnInput).request.version = 11 ∧
          ({} : ConnInput).request.connectionHeader ≠ "close" then
        ⟨notFoundWire "Icinga/2.14.2" ({} : ConnInput).request ::
            (connLoop "Icinga/2.14.2" []).written,
          LogEvent.request ({} : ConnInput).request.method ({} : ConnInput).request.target
              ({} : ConnInput).request.userAgent ::
            (connLoop "Icinga/2.14.2" []).logs,
          (connLoop "Icinga/2.14.2" []).exit⟩
      else
        ⟨[notFoundWire "Icinga/2.14.2" ({} : ConnInput).request],
          [LogEvent.request ({} : ConnInput).request.method ({} : ConnInput).request.target
            ({} : ConnInput).request.userAgent],
          ConnExit.closed⟩ :=
  c2_keep_alive "Icinga/2.14.2" {} [] rfl rfl rfl rfl

/-- Wire image of the 500 response built in the catch of ProcessRequest:
it starts from a fresh default response, so it carries no Server field. -/
def unhandledWire (diag : String) : Response :=
  ⟨500, none, false, some ⟨500, "Unhandled exception", some diag⟩⟩

/-- C3: when the fully parsed request's handling step raises a
non-cancellation exception, the exception is not propagated as long as the
500 write succeeds: a 500 response with the diagnostic detail in its JSON
body is written and flushed, and the loop then follows the ordinary
keep-alive decision; when the 500 write itself fails, nothing is written and
the connection ends instead of continuing. -/
theorem c3_handler_error (sh : String) (i : ConnInput) (rest : List ConnInput)
    (diag : String)
    (h1 : headerFailReason i = none) (h2 : bodyFailReason i = none)
    (h3 : i.handler = HandlerOutcome.raiseExn diag) :
    (i.writeFail = none →
      connLoop sh (i :: rest) =
        if i.request.version = 11 ∧ i.request.connectionHeader ≠ "close" then
          ⟨unhandledWire diag :: (connLoop sh rest).written,
            LogEvent.request i.request.method i.request.target i.request.userAgent ::
              (connLoop sh rest).logs,
            (connLoop sh rest).exit⟩
        else
          ⟨[unhandledWire diag],
            [LogEvent.request i.request.method i.request.target i.request.userAgent],
            ConnExit.closed⟩) ∧
    (∀ e, i.writeFail = some e →
      (connLoop sh (i :: rest)).written = [] ∧
      (connLoop sh (i :: rest)).exit =
        if e = Exn.forcedUnwind then ConnExit.unwound else ConnExit.caught e) := by
  constructor
  · intro h4
    by_cases hc : i.request.version = 11 ∧ i.request.connectionHeader ≠ "close"
    · have hk : keepAliveDecision i.request = true :=
        (keepAliveDecision_eq_true i.request).mpr hc
      simp [connLoop, stepConn, h1, h2, h3, h4, hc, hk, unhandledWire, sendJsonError]
    · have hk : keepAliveDecision i.request = false := by
        rcases Bool.eq_false_or_eq_true (keepAliveDecision i.request) with h | h
        · exact absurd ((keepAliveDecision_eq_true i.request).mp h) hc
        · exact h
      simp [connLoop, stepConn, h1, h2, h3, h4, hc, hk, unhandledWire, sendJsonError]
  · intro e he
    cases e with
    | forcedUnwind => simp [connLoop, stepConn, h1, h2, h3, he]
    | sysError c => simp [connLoop, stepConn, h1, h2, h3, he]
    | otherExn w => simp [connLoop, stepConn, h1, h2, h3, he]

/-- Concrete input for the C3 witness: a default HTTP/1.1 request whose
handler raises. -/
def c3ex : ConnInput := { handler := HandlerOutcome.raiseExn "router failure" }

/-- Witness for C3 at a concrete request whose handler raises and whose 500
write succeeds. -/
theorem c3_handler_error_witness :
    connLoop "Icinga/2.14.2" [c3ex] =
      if c3ex.request.version = 11 ∧ c3ex.request.connectionHeader ≠ "close" then
        ⟨unhandledWire "router failure" :: (connLoop "Icinga/2.14.2" []).written,
          LogEvent.request c3ex.request.method c3ex.request.target c3ex.request.userAgent ::
            (connLoop "Icinga/2.14.2" []).logs,
          (connLoop "Icinga/2.14.2" []).exit⟩
      else
        ⟨[unhandledWire "router failure"],
          [LogEvent.request c3ex.request.method c3ex.request.target c3ex.request.userAgent],
          ConnExit.closed⟩ :=
  (c3_handler_error "Icinga/2.14.2" c3ex [] "router failure" rfl rfl rfl).1 rfl

/-- Concrete input refuting C4: a request whose handling step raises, so the
500 fallback response is written. -/
def c4ex : ConnInput := { handler := HandlerOutcome.raiseExn "boom" }

/-- C4 is false as stated: the 500 built in the catch of ProcessRequest is a
fresh response object, so it carries no Server field, and hence not every
response written by the server carries the server-identity header. -/
theorem c4_counterexample :
    ¬ ∀ r ∈ (connLoop "Icinga/2.14.2" [c4ex]).written,
        r.server = some "Icinga/2.14.2" := by
  intro h
  have hm : unhandledWire "boom" ∈ (connLoop "Icinga/2.14.2" [c4ex]).written := by
    exact List.mem_singleton.mpr rfl
  exact absurd (h _ hm) (by simp [unhandledWire])

/-- Per-iteration form of the amended C4: every response an iteration writes
carries the server-identity header, except a 500, which carries none. -/
theorem stepConn_server (sh : String) (i : ConnInput) :
    ∀ r ∈ (stepConn sh i).written,
      (r.status ≠ 500 → r.server = some sh) ∧ (r.status = 500 → r.server = none) := by
  intro r hr
  unfold stepConn at hr
  rcases hh : headerFailReason i with _ | reason <;> rw [hh] at hr
  · rcases hb : bodyFailReason i with _ | reason <;> rw [hb] at hr
    · rcases hd : i.handler with _ | _ | diag <;> rw [hd] at hr
      · rcases hw : i.writeFail with _ | e <;> rw [hw] at hr
        · simp at hr
          subst hr
          simp [sendJsonError]
        · simp at hr
      · simp at hr
      · rcases hw : i.writeFail with _ | e <;> rw [hw] at hr
        · simp at hr
          subst hr
          simp [sendJsonError]
        · simp at hr
    · rcases hw : i.writeFail with _ | e <;> rw [hw] at hr
      · simp at hr
        subst hr
        simp [badRequestResponse, sendJsonBody]
      · simp at hr
  · rcases hw : i.writeFail with _ | e <;> rw [hw] at hr
    · simp at hr
      subst hr
      simp [badRequestResponse, sendJsonBody]
    · simp at hr

/-- C4 amended: every response the server writes carries the server-identity
header as its Server field, except the 500 handler-error response, which is
built as a fresh response and carries no Server field at all. -/
theorem c4_amended_server_header (sh : String) (inputs : List ConnInput) :
    ∀ r ∈ (connLoop sh inputs).written,
      (r.status ≠ 500 → r.server = some sh) ∧ (r.status = 500 → r.server = none) := by
  induction inputs with
  | nil => intro r hr; simp [connLoop] at hr
  | cons i rest ih =>
    intro r hr
    rcases ht : (stepConn sh i).thrown with _ | e
    · by_cases hk : (stepConn sh i).keepAlive = true
      · simp only [connLoop, ht, hk, if_true] at hr
        rcases List.mem_append.mp hr with hr | hr
        · exact stepConn_server sh i r hr
        · exact ih r hr
      · rw [Bool.not_eq_true] at hk
        simp only [connLoop, ht, hk, Bool.false_eq_true, if_false] at hr
        exact stepConn_server sh i r hr
    · cases e with
      | forcedUnwind =>
        simp only [connLoop, ht] at hr
        exact stepConn_server sh i r hr
      | sysError c =>
        simp only [connLoop, ht] at hr
        exact stepConn_server sh i r hr
      | otherExn w =>
        simp only [connLoop, ht] at hr
        exact stepConn_server sh i r hr

/-- Witness for the amended C4 at the concrete default request: the written
404 response carries the server-identity header. -/
theorem c4_amended_server_header_witness :
    (notFoundWire "Icinga/2.14.2" ({} : ConnInput).request).server =
      some "Icinga/2.14.2" :=
  (c4_amended_server_header "Icinga/2.14.2" [{}]
      (notFoundWire "Icinga/2.14.2" ({} : ConnInput).request)
      (List.mem_singleton.mpr rfl)).1 (by decide)

/-- Severities of the connection-error log lines in a log list. -/
def connErrorSeverities (ls : List LogEvent) : List LogSeverity :=
  ls.filterMap fun e =>
    match e with
    | LogEvent.connError sev => some sev
    | _ => none

/-- The connection-error severities of concatenated logs concatenate. -/
theorem connErrorSeverities_append (a b : List LogEvent) :
    connErrorSeverities (a ++ b) = connErrorSeverities a ++ connErrorSeverities b :=
  List.filterMap_append a b _

/-- An iteration body itself never writes the top-level catch log line. -/
theorem stepConn_no_connError (sh : String) (i : ConnInput) :
    connErrorSeverities (stepConn sh i).logs = [] := by
  unfold stepConn
  rcases hh : headerFailReason i with _ | reason
  · rcases hb : bodyFailReason i with _ | reason
    · rcases hd : i.handler with _ | _ | diag
      · rcases hw : i.writeFail with _ | e <;> simp [connErrorSeverities]
      · simp [connErrorSeverities]
      · rcases hw : i.writeFail with _ | e <;> simp [connErrorSeverities]
    · rcases hw : i.writeFail with _ | e <;> simp [connErrorSeverities]
  · rcases hw : i.writeFail with _ | e <;> simp [connErrorSeverities]

/-- The severity classification of the top-level catch is LogNotice exactly
for a broken-pipe system error. -/
theorem classify_notice_iff (e : Exn) :
    classify e = LogSeverity.notice ↔ e = Exn.sysError l_EPipe := by
  cases e with
  | forcedUnwind => simp [classify]
  | sysError c =>
    by_cases hc : c = l_EPipe <;> simp [classify, hc]
  | otherExn w => simp [classify]

/-- C8: a connection task logs the top-level catch line exactly once, and
exactly when a non-cancellation exception escaped the request/response loop;
the line is at notice (low) severity exactly when the exception is a system
error with the broken-pipe code, and at critical severity for every other
exception; the forced unwind is rethrown, never caught, so a caught exception
is never the cancellation signal and an unwinding task logs nothing. -/
theorem c8_top_level_catch (sh : String) (inputs : List ConnInput) :
    connErrorSeverities (connLoop sh inputs).logs =
      (match (connLoop sh inputs).exit with
        | ConnExit.caught e => [classify e]
        | _ => []) ∧
    (∀ e, (connLoop sh inputs).exit = ConnExit.caught e →
      e ≠ Exn.forcedUnwind ∧
        (classify e = LogSeverity.notice ↔ e = Exn.sysError l_EPipe)) := by
  induction inputs with
  | nil =>
    refine ⟨by simp [connLoop, connErrorSeverities], ?_⟩
    intro e he
    simp [connLoop] at he
  | cons i rest ih =>
    rcases ht : (stepConn sh i).thrown with _ | e
    · by_cases hk : (stepConn sh i).keepAlive = true
      · constructor
        · simp only [connLoop, ht, hk, if_true]
          rw [connErrorSeverities_append, stepConn_no_connError, List.nil_append]
          exact ih.1
        · intro e he
          simp only [connLoop, ht, hk, if_true] at he
          exact ih.2 e he
      · rw [Bool.not_eq_true] at hk
        constructor
        · simp only [connLoop, ht, hk, Bool.false_eq_true, if_false]
          exact stepConn_no_connError sh i
        · intro e he
          simp only [connLoop, ht, hk, Bool.false_eq_true, if_false] at he
          exact absurd he (by simp)
    · cases e with
      | forcedUnwind =>
        constructor
        · simp only [connLoop, ht]
          exact stepConn_no_connError sh i
        · intro e he
          simp only [connLoop, ht] at he
          exact absurd he (by simp)
      | sysError c =>
        constructor
        · simp only [connLoop, ht]
          rw [connErrorSeverities_append, stepConn_no_connError, List.nil_append]
          simp [connErrorSeverities]
        · intro e he
          simp only [connLoop, ht, ConnExit.caught.injEq] at he
          subst he
          exact ⟨by simp, classify_notice_iff _⟩
      | otherExn w =>
        constructor
        · simp only [connLoop, ht]
          rw [connErrorSeverities_append, stepConn_no_connError, List.nil_append]
          simp [connErrorSeverities]
        · intro e he
          simp only [connLoop, ht, ConnExit.caught.injEq] at he
          subst he
          exact ⟨by simp, classify_notice_iff _⟩

/-- Concrete input for the C8 witness: a request whose response write fails
with a broken-pipe system error. -/
def c8ex : ConnInput := { writeFail := some (Exn.sysError 32) }

/-- Witness for C8 at a concrete connection whose write fails with the
broken-pipe system error: the caught exception is not the cancellation
signal, and its log line is at notice severity. -/
theorem c8_top_level_catch_witness :
    Exn.sysError 32 ≠ Exn.forcedUnwind ∧
      (classify (Exn.sysError 32) = LogSeverity.notice ↔
        Exn.sysError 32 = Exn.sysError l_EPipe) :=
  (c8_top_level_catch "Icinga/2.14.2" [c8ex]).2 (Exn.sysError 32) rfl

/-- C6: the event-loop driver thread terminates exactly when some run attempt
returns normally or the cancellation signal reaches it (so a sequence of
non-cancellation exceptions never terminates the thread), and every failing
run attempt before that contributes exactly one critical-severity line plus
one debug-severity line carrying the diagnostic information, after which the
loop re-enters run. -/
theorem c6_event_loop (outs : List RunOutcome) :
    ((runEventLoop outs).terminated = true ↔
      ∃ o, o ∈ outs ∧ (o = RunOutcome.normal ∨ o = RunOutcome.cancel)) ∧
    (runEventLoop outs).logs =
      ((outs.takeWhile isErr).map fun o =>
        [EvLog.criticalLine "Exception during I/O operation!",
          EvLog.debugDiag (errDiag o)]).flatten := by
  induction outs with
  | nil => simp [runEventLoop]
  | cons o rest ih =>
    cases o with
    | normal => simp [runEventLoop, isErr]
    | cancel => simp [runEventLoop, isErr]
    | err d =>
      constructor
      · rw [show (runEventLoop (RunOutcome.err d :: rest)).terminated =
            (runEventLoop rest).terminated from rfl]
        rw [ih.1]
        constructor
        · rintro ⟨o, ho, hc⟩
          exact ⟨o, List.mem_cons_of_mem _ ho, hc⟩
        · rintro ⟨o, ho, hc⟩
          rcases List.mem_cons.mp ho with rfl | ho
          · rcases hc with hc | hc <;> exact absurd hc (by simp)
          · exact ⟨o, ho, hc⟩
      · simp only [runEventLoop, List.takeWhile_cons, isErr, if_true, List.map_cons,
          List.flatten]
        rw [ih.2]
        simp [errDiag]

/-- C5: on a running service (flag set, thread joinable), BeforeFork posts
the cancellation signal, joins the thread and notifies the execution context,
leaving the thread non-joinable while the acceptor stays open, the
was-running flag stays set and the socket file stays on disk; a subsequent
AfterFork(true) in the parent relaunches the background thread; and
AfterFork(false) in the child resets the component fields to exactly the
freshly constructed state. -/
theorem c5_fork_protocol (s : Sys)
    (hf : s.dc.wasRunningBeforeFork = true) (ht : s.dc.threadJoinable = true) :
    beforeForkOp s =
      some ({ s with dc := { s.dc with threadJoinable := false } },
        [LAct.postCancel, LAct.joinThread, LAct.notifyPrepare]) ∧
    afterForkOp true { s with dc := { s.dc with threadJoinable := false } } =
      some ({ s with dc := { s.dc with threadJoinable := true } },
        [LAct.notifyParent, LAct.launchThread]) ∧
    afterForkOp false { s with dc := { s.dc with threadJoinable := false } } =
      some (⟨{}, s.socketOnDisk⟩,
        LAct.notifyChild :: (if s.dc.acceptorOpen then [LAct.closeAcceptor] else [])) := by
  refine ⟨?_, ?_, ?_⟩ <;> simp [beforeForkOp, afterForkOp, hf, ht]

/-- Witness for C5 at the concrete state reached by Start. -/
theorem c5_fork_protocol_witness :
    beforeForkOp ⟨⟨true, true, true⟩, true⟩ =
      some (⟨⟨true, false, true⟩, true⟩,
        [LAct.postCancel, LAct.joinThread, LAct.notifyPrepare]) ∧
    afterForkOp true ⟨⟨true, false, true⟩, true⟩ =
      some (⟨⟨true, true, true⟩, true⟩, [LAct.notifyParent, LAct.launchThread]) ∧
    afterForkOp false ⟨⟨true, false, true⟩, true⟩ =
      some (⟨{}, true⟩, [LAct.notifyChild, LAct.closeAcceptor]) :=
  c5_fork_protocol ⟨⟨true, true, true⟩, true⟩ rfl rfl

/-- C7 is false as stated: after Start followed by BeforeFork, a point
reachable by a sequence of the four lifecycle calls, the thread has been
joined while the externally visible state (the was-running flag, which Start
sets and only Stop or the child-side AfterFork clear) still says Running. -/
theorem c7_counterexample :
    ¬ ∀ s : Sys, Reachable s →
        (s.dc.threadJoinable = true ↔ s.dc.wasRunningBeforeFork = true) := by
  intro h
  have h1 : Reachable ⟨⟨true, true, true⟩, true⟩ :=
    Reachable.start Reachable.init rfl
  have h2 : Reachable ⟨⟨true, false, true⟩, true⟩ :=
    Reachable.beforeFork h1 rfl
  exact absurd ((h _ h2).mpr rfl) (by decide)

/-- Start establishes the thread-iff-running invariant outright. -/
theorem startOp_inv {s t : Sys} {as : List LAct} (h : startOp s = some (t, as)) :
    t.dc.threadJoinable = t.dc.wasRunningBeforeFork := by
  unfold startOp at h
  split at h
  · exact absurd h (by simp)
  · injection h with h1
    injection h1 with h2 h3
    subst h2
    rfl

/-- Stop establishes the thread-iff-running invariant outright. -/
theorem stopOp_inv {s t : Sys} {as : List LAct} (h : stopOp s = some (t, as)) :
    t.dc.threadJoinable = t.dc.wasRunningBeforeFork := by
  unfold stopOp at h
  split at h
  · injection h with h1
    injection h1 with h2 h3
    subst h2
    rfl
  · exact absurd h (by simp)

/-- A complete BeforeFork-then-AfterFork pair preserves the thread-iff-running
invariant. -/
theorem forkStep_inv {b : Bool} {s t u : Sys} {as bs : List LAct}
    (ih : s.dc.threadJoinable = s.dc.wasRunningBeforeFork)
    (h1 : beforeForkOp s = some (t, as)) (h2 : afterForkOp b t = some (u, bs)) :
    u.dc.threadJoinable = u.dc.wasRunningBeforeFork := by
  cases hf : s.dc.wasRunningBeforeFork with
  | false =>
    have ht : t = s := by
      simp [beforeForkOp, hf] at h1
      exact h1.1.symm
    subst ht
    simp [afterForkOp, hf] at h2
    rw [← h2.1]
    rw [ih, hf]
  | true =>
    have hj : s.dc.threadJoinable = true := by rw [ih, hf]
    have ht : t = ⟨⟨true, false, s.dc.acceptorOpen⟩, s.socketOnDisk⟩ := by
      simp [beforeForkOp, hf, hj] at h1
      exact h1.1.symm
    subst ht
    cases b with
    | true =>
      simp [afterForkOp] at h2
      rw [← h2.1]
    | false =>
      simp [afterForkOp] at h2
      rw [← h2.1]

/-- C7 amended: the invariant holds at every point reachable when the fork
protocol is honored, that is, when each BeforeFork is immediately followed by
its AfterFork; the thread handle is joinable exactly when the was-running
flag says Running. (Strictly between BeforeFork and AfterFork on a running
service the thread is already joined while the flag still says Running.) -/
theorem c7_amended_invariant (s : Sys) (h : ReachableF s) :
    s.dc.threadJoinable = s.dc.wasRunningBeforeFork := by
  induction h with
  | init => rfl
  | start _ heq _ => exact startOp_inv heq
  | stop _ heq _ => exact stopOp_inv heq
  | fork _ h1 h2 ih => exact forkStep_inv ih h1 h2

/-- Witness for the amended C7 at the concrete state reached by one Start. -/
theorem c7_amended_invariant_witness :
    (⟨⟨true, true, true⟩, true⟩ : Sys).dc.threadJoinable =
      (⟨⟨true, true, true⟩, true⟩ : Sys).dc.wasRunningBeforeFork :=
  c7_amended_invariant _ (ReachableF.start ReachableF.init rfl)

/-- C9: the destructor performs the full Stop sequence exactly when the
thread is joinable (clearing the was-running flag, posting the cancellation
signal, joining the thread, closing the acceptor and unlinking the socket
path), and performs none of these actions otherwise. -/
theorem c9_destructor (s : Sys) :
    destructorOp s =
      if s.dc.threadJoinable then
        (⟨⟨false, false, false⟩, false⟩,
          [LAct.postCancel, LAct.joinThread, LAct.closeAcceptor, LAct.unlinkSocket])
      else (s, []) := by
  cases h : s.dc.threadJoinable <;> simp [destructorOp, stopOp, h]

/-- C10: when the was-running flag is clear, BeforeFork and AfterFork perform
only the fork notification toward the execution context: no cancellation is
posted, no thread joined or launched, the child does not reset the object,
and every modelled field (flag, thread handle, acceptor, socket file) is left
unchanged by both calls. -/
theorem c10_fork_noop (s : Sys) (h : s.dc.wasRunningBeforeFork = false) :
    beforeForkOp s = some (s, [LAct.notifyPrepare]) ∧
    afterForkOp true s = some (s, [LAct.notifyParent]) ∧
    afterForkOp false s = some (s, [LAct.notifyChild]) := by
  refine ⟨?_, ?_, ?_⟩ <;> simp [beforeForkOp, afterForkOp, h]

/-- Witness for C10 at a concrete stopped state with the acceptor open and
the socket file still on disk. -/
theorem c10_fork_noop_witness :
    beforeForkOp ⟨⟨false, false, true⟩, true⟩ =
      some (⟨⟨false, false, true⟩, true⟩, [LAct.notifyPrepare]) ∧
    afterForkOp true ⟨⟨false, false, true⟩, true⟩ =
      some (⟨⟨false, false, true⟩, true⟩, [LAct.notifyParent]) ∧
    afterForkOp false ⟨⟨false, false, true⟩, true⟩ =
      some (⟨⟨false, false, true⟩, true⟩, [LAct.notifyChild]) :=
  c10_fork_noop ⟨⟨false, false, true⟩, true⟩ rfl

end DaemonControl
